import Mathlib

/-! PANDAseq: assembler configuration and FASTQ argument record

A shallow embedding of `assembler_support.c` and `args_fastq.c`.

Conventions of the embedding:

* `double` is an ordered field `R`; the `<math.h>` functions `log` and `exp` are arguments of
  the functions that call them.  The theorems instantiate `R` with `ℝ` and the two functions
  with `Real.log` and `Real.exp`.
* `PANDA_MAX_LEN` and `KMERSEEN_SIZE` are macros of the headers `pandaseq.h` and
  `assembler.h`; their values are left open, as arguments of the functions that use them.
* `int` and `long` are `Int`, `size_t` is `Nat`.  The reference count is incremented and
  decremented without wrap-around (signed overflow is undefined in C).
* A pointer to an opaque object is `Ptr`: `none` is `NULL`.  A pointer to an array of
  nucleotides is the map from index to element.
* `malloc` hands out a block with indeterminate contents: the constructors take the contents
  of the fresh block as an argument and overwrite the fields the C code assigns.
* The pthread mutex is left out: every operation is modelled as running atomically.
-/

namespace Pandaseq

/-- A nucleotide code, `panda_nt` of `pandaseq.h`. -/
abbrev panda_nt := Nat

/-- An opaque pointer; `none` is `NULL`. -/
abbrev Ptr := Option Nat

/-- A filter module handle, `PandaModule` of `pandaseq.h`. -/
abbrev PandaModule := Nat

/-- The fields of `struct panda_assembler` (declared in `assembler.h`) that
`assembler_support.c` reads or writes.  The module array together with `modules_length` and
`modules_size` is the list `modules`. -/
structure panda_assembler (R : Type) where
  refcnt : Int
  next : Ptr
  next_data : Ptr
  next_destroy : Ptr
  logger : Ptr
  logger_data : Ptr
  logger_destroy : Ptr
  rejected : Ptr
  modules : List PandaModule
  result_forward : Ptr
  result_reverse : Ptr
  forward_primer : Nat → panda_nt
  forward_primer_length : Nat
  reverse_primer : Nat → panda_nt
  reverse_primer_length : Nat
  forward_trim : Nat
  reverse_trim : Nat
  nofpcount : Int
  norpcount : Int
  okcount : Int
  lowqcount : Int
  degencount : Int
  noalgncount : Int
  count : Int
  no_n : Bool
  kmerseen : List Nat
  threshold : R
  q : R
  pmatch : R
  pmismatch : R
  minoverlap : Int

section Assembler

variable {R : Type} [LinearOrderedField R]

/-- The loop `for (it = 0; it < length; it++) dst[it] = sequence[it];`. -/
def copy_primer (dst sequence : Nat → panda_nt) : Nat → Nat → panda_nt
  | 0 => dst
  | it + 1 => Function.update (copy_primer dst sequence it) it (sequence it)

/-- Embedding of `panda_assembler_get_minimum_overlap`. -/
def panda_assembler_get_minimum_overlap (assembler : panda_assembler R) : Int :=
  assembler.minoverlap

/-- Embedding of `panda_assembler_set_minimum_overlap`. -/
def panda_assembler_set_minimum_overlap (PANDA_MAX_LEN : Nat) (assembler : panda_assembler R)
    (overlap : Int) : panda_assembler R :=
  if overlap > 1 ∧ overlap < (PANDA_MAX_LEN : Int) then
    { assembler with minoverlap := overlap }
  else assembler

/-- Embedding of `panda_assembler_get_threshold`. -/
def panda_assembler_get_threshold (exp : R → R) (assembler : panda_assembler R) : R :=
  exp assembler.threshold

/-- Embedding of `panda_assembler_set_threshold`. -/
def panda_assembler_set_threshold (log : R → R) (assembler : panda_assembler R)
    (threshold : R) : panda_assembler R :=
  if threshold > 0 ∧ threshold < 1 then
    { assembler with threshold := log threshold }
  else assembler

/-- Embedding of `panda_assembler_get_error_estimation`. -/
def panda_assembler_get_error_estimation (assembler : panda_assembler R) : R :=
  assembler.q

/-- Embedding of `panda_assembler_set_error_estimation`. -/
def panda_assembler_set_error_estimation (log : R → R) (assembler : panda_assembler R)
    (q : R) : panda_assembler R :=
  if q > 0 ∧ q < 1 then
    { assembler with
      q := q
      pmatch := log (0.25 * (1 - 2 * q + q * q))
      pmismatch := log ((3 * q - 2 * q * q) / 18.0) }
  else assembler

/-- Embedding of `panda_assembler_get_no_forward_primer_count`. -/
def panda_assembler_get_no_forward_primer_count (assembler : panda_assembler R) : Int :=
  assembler.nofpcount

/-- Embedding of `panda_assembler_get_no_reverse_primer_count`. -/
def panda_assembler_get_no_reverse_primer_count (assembler : panda_assembler R) : Int :=
  assembler.norpcount

/-- Embedding of `panda_assembler_get_ok_count`. -/
def panda_assembler_get_ok_count (assembler : panda_assembler R) : Int :=
  assembler.okcount

/-- Embedding of `panda_assembler_get_low_quality_count`. -/
def panda_assembler_get_low_quality_count (assembler : panda_assembler R) : Int :=
  assembler.lowqcount

/-- Embedding of `panda_assembler_get_degenerate_count`. -/
def panda_assembler_get_degenerate_count (assembler : panda_assembler R) : Int :=
  assembler.degencount

/-- Embedding of `panda_assembler_get_failed_alignment_count`. -/
def panda_assembler_get_failed_alignment_count (assembler : panda_assembler R) : Int :=
  assembler.noalgncount

/-- Embedding of `panda_assembler_get_count`. -/
def panda_assembler_get_count (assembler : panda_assembler R) : Int :=
  assembler.count

/-- Embedding of `panda_assembler_get_disallow_degenerates`. -/
def panda_assembler_get_disallow_degenerates (assembler : panda_assembler R) : Bool :=
  assembler.no_n

/-- Embedding of `panda_assembler_set_disallow_degenerates`. -/
def panda_assembler_set_disallow_degenerates (assembler : panda_assembler R)
    (allow : Bool) : panda_assembler R :=
  { assembler with no_n := allow }

/-- Embedding of `panda_assembler_set_forward_primer`. -/
def panda_assembler_set_forward_primer (PANDA_MAX_LEN : Nat) (assembler : panda_assembler R)
    (sequence : Nat → panda_nt) (length : Nat) : panda_assembler R :=
  if length < PANDA_MAX_LEN then
    { assembler with
      forward_primer := copy_primer assembler.forward_primer sequence length
      forward_primer_length := length
      forward_trim := 0 }
  else assembler

/-- Embedding of `panda_assembler_set_reverse_primer`. -/
def panda_assembler_set_reverse_primer (PANDA_MAX_LEN : Nat) (assembler : panda_assembler R)
    (sequence : Nat → panda_nt) (length : Nat) : panda_assembler R :=
  if length < PANDA_MAX_LEN then
    { assembler with
      reverse_primer := copy_primer assembler.reverse_primer sequence length
      reverse_primer_length := length
      reverse_trim := 0 }
  else assembler

/-- Embedding of `panda_assembler_get_reverse_primer`: the returned pointer (`none` for `NULL`)
and the value written to `*length`. -/
def panda_assembler_get_reverse_primer (assembler : panda_assembler R) :
    Option (Nat → panda_nt) × Nat :=
  let length := assembler.reverse_primer_length
  (if length = 0 then none else some assembler.reverse_primer, length)

/-- Embedding of `panda_assembler_get_forward_primer`: the returned pointer (`none` for `NULL`)
and the value written to `*length`. -/
def panda_assembler_get_forward_primer (assembler : panda_assembler R) :
    Option (Nat → panda_nt) × Nat :=
  let length := assembler.forward_primer_length
  (if length = 0 then none else some assembler.forward_primer, length)

/-- Embedding of `panda_assembler_get_forward_trim`. -/
def panda_assembler_get_forward_trim (assembler : panda_assembler R) : Nat :=
  assembler.forward_trim

/-- Embedding of `panda_assembler_set_forward_trim`. -/
def panda_assembler_set_forward_trim (assembler : panda_assembler R) (trim : Nat) :
    panda_assembler R :=
  { assembler with forward_trim := trim, forward_primer_length := 0 }

/-- Embedding of `panda_assembler_get_reverse_trim`. -/
def panda_assembler_get_reverse_trim (assembler : panda_assembler R) : Nat :=
  assembler.reverse_trim

/-- Embedding of `panda_assembler_set_reverse_trim`. -/
def panda_assembler_set_reverse_trim (assembler : panda_assembler R) (trim : Nat) :
    panda_assembler R :=
  { assembler with reverse_trim := trim, reverse_primer_length := 0 }

/-- Modelled from the spec: `panda_assembler_add_module` is defined in `module.c`, which is
not among the sources.  The spec describes the module chain as an ordered sequence of filter
predicates to which `add_module(m)` adds; the model appends the module to the chain and
touches nothing else. -/
def panda_assembler_add_module (assembler : panda_assembler R) (module : PandaModule) :
    panda_assembler R :=
  { assembler with modules := assembler.modules ++ [module] }

/-- Embedding of `panda_assembler_copy_configuration`, for `dest` and `src` two distinct
objects. -/
def panda_assembler_copy_configuration (PANDA_MAX_LEN : Nat) (dest src : panda_assembler R) :
    panda_assembler R :=
  let dest := src.modules.foldl panda_assembler_add_module dest
  let dest := panda_assembler_set_forward_primer PANDA_MAX_LEN dest src.forward_primer
    src.forward_primer_length
  let dest := panda_assembler_set_reverse_primer PANDA_MAX_LEN dest src.reverse_primer
    src.reverse_primer_length
  { dest with
    forward_trim := src.forward_trim
    reverse_trim := src.reverse_trim
    threshold := src.threshold
    minoverlap := src.minoverlap
    no_n := src.no_n }

/-- Embedding of `panda_assembler_new`.  `mem` is the result of
`malloc(sizeof(struct panda_assembler))`: `none` when the allocation fails, otherwise the
indeterminate contents of the fresh block.  The allocation of the k-mer table is taken to
succeed (the C code does not test it); `memset` makes it `KMERSEEN_SIZE` zero bytes. -/
def panda_assembler_new (PANDA_MAX_LEN KMERSEEN_SIZE : Nat) (log : R → R)
    (mem : Option (panda_assembler R))
    (next next_data next_destroy logger logger_data logger_destroy : Ptr) :
    Option (panda_assembler R) :=
  match mem with
  | none => none
  | some assembler =>
    let assembler : panda_assembler R :=
      { assembler with
        refcnt := 1
        next := next
        next_data := next_data
        next_destroy := next_destroy
        logger := logger
        logger_data := logger_data
        logger_destroy := logger_destroy
        rejected := none
        modules := []
        result_forward := none
        forward_primer_length := 0
        result_reverse := none
        reverse_primer_length := 0
        forward_trim := 0
        reverse_trim := 0
        nofpcount := 0
        norpcount := 0
        okcount := 0
        lowqcount := 0
        degencount := 0
        noalgncount := 0
        count := 0
        no_n := false
        kmerseen := List.replicate KMERSEEN_SIZE 0 }
    let assembler := panda_assembler_set_error_estimation log assembler 0.36
    let assembler := panda_assembler_set_threshold log assembler 0.6
    let assembler := panda_assembler_set_minimum_overlap PANDA_MAX_LEN assembler 1
    some assembler

/-- Embedding of `panda_assembler_ref`. -/
def panda_assembler_ref (assembler : panda_assembler R) : panda_assembler R :=
  { assembler with refcnt := assembler.refcnt + 1 }

/-- The destructor calls in the body of `panda_assembler_unref`, one constructor per call:
`free(assembler->kmerseen)`, `module_destroy(assembler)`, `DESTROY_MEMBER(assembler, next)`,
`DESTROY_MEMBER(assembler, logger)` and `free(assembler)`.  The bodies of `module_destroy`
and `DESTROY_MEMBER` are not among the sources; a call is recorded, not interpreted. -/
inductive Destroyed where
  | kmerseen
  | modules
  | next
  | logger
  | assembler
  deriving DecidableEq, Repr

/-- Embedding of `panda_assembler_unref`: the assembler after the decrement and the destructor
calls made by this call, in program order. -/
def panda_assembler_unref (assembler : panda_assembler R) :
    panda_assembler R × List Destroyed :=
  let assembler := { assembler with refcnt := assembler.refcnt - 1 }
  let count := assembler.refcnt
  if count = 0 then
    (assembler, [Destroyed.kmerseen, Destroyed.modules, Destroyed.next, Destroyed.logger,
      Destroyed.assembler])
  else (assembler, [])

/-- The destructor calls made when the count reaches 0, in program order. -/
def destroy_all : List Destroyed :=
  [Destroyed.kmerseen, Destroyed.modules, Destroyed.next, Destroyed.logger,
    Destroyed.assembler]

/-- A call of one of the public setters of the assembler, with its arguments. -/
inductive ConfigOp (R : Type) where
  | set_minimum_overlap (overlap : Int)
  | set_threshold (threshold : R)
  | set_error_estimation (q : R)
  | set_disallow_degenerates (allow : Bool)
  | set_forward_primer (sequence : Nat → panda_nt) (length : Nat)
  | set_reverse_primer (sequence : Nat → panda_nt) (length : Nat)
  | set_forward_trim (trim : Nat)
  | set_reverse_trim (trim : Nat)
  | add_module (module : PandaModule)

/-- The effect of a setter call on the assembler. -/
def ConfigOp.apply (PANDA_MAX_LEN : Nat) (log : R → R) :
    ConfigOp R → panda_assembler R → panda_assembler R
  | .set_minimum_overlap overlap, a => panda_assembler_set_minimum_overlap PANDA_MAX_LEN a overlap
  | .set_threshold threshold, a => panda_assembler_set_threshold log a threshold
  | .set_error_estimation q, a => panda_assembler_set_error_estimation log a q
  | .set_disallow_degenerates allow, a => panda_assembler_set_disallow_degenerates a allow
  | .set_forward_primer sequence length, a =>
    panda_assembler_set_forward_primer PANDA_MAX_LEN a sequence length
  | .set_reverse_primer sequence length, a =>
    panda_assembler_set_reverse_primer PANDA_MAX_LEN a sequence length
  | .set_forward_trim trim, a => panda_assembler_set_forward_trim a trim
  | .set_reverse_trim trim, a => panda_assembler_set_reverse_trim a trim
  | .add_module module, a => panda_assembler_add_module a module

/-- A call of `panda_assembler_ref` or of `panda_assembler_unref`. -/
inductive RefOp where
  | ref
  | unref
  deriving DecidableEq, Repr

/-- The effect of one reference-count call: the assembler afterwards and the destructor calls
the call made. -/
def RefOp.apply : RefOp → panda_assembler R → panda_assembler R × List Destroyed
  | .ref, a => (panda_assembler_ref a, [])
  | .unref, a => panda_assembler_unref a

/-- Runs a sequence of reference-count calls, oldest first, and collects the destructor
calls in the order in which they were made. -/
def run_refs : List RefOp → panda_assembler R → panda_assembler R × List Destroyed
  | [], a => (a, [])
  | op :: ops, a =>
    let r := op.apply a
    let rest := run_refs ops r.1
    (rest.1, r.2 ++ rest.2)

/-- The reference count is positive before each call of the sequence. -/
def refs_live : List RefOp → panda_assembler R → Bool
  | [], _ => true
  | op :: ops, a => decide (0 < a.refcnt) && refs_live ops (op.apply a).1

/-- The seven counters, as the getters report them: total, ok, low quality, degenerate,
failed alignment, no forward primer, no reverse primer. -/
def counters (assembler : panda_assembler R) : List Int :=
  [panda_assembler_get_count assembler, panda_assembler_get_ok_count assembler,
    panda_assembler_get_low_quality_count assembler,
    panda_assembler_get_degenerate_count assembler,
    panda_assembler_get_failed_alignment_count assembler,
    panda_assembler_get_no_forward_primer_count assembler,
    panda_assembler_get_no_reverse_primer_count assembler]

end Assembler

/-- The assembler states reachable from `panda_assembler_new` by the public configuration
operations: the setters of `ConfigOp`, and `panda_assembler_copy_configuration` from another
reachable assembler. -/
inductive Reachable (PANDA_MAX_LEN KMERSEEN_SIZE : Nat) : panda_assembler ℝ → Prop
  | new (mem : Option (panda_assembler ℝ))
      (next next_data next_destroy logger logger_data logger_destroy : Ptr)
      (a : panda_assembler ℝ)
      (h : panda_assembler_new PANDA_MAX_LEN KMERSEEN_SIZE Real.log mem next next_data
        next_destroy logger logger_data logger_destroy = some a) :
      Reachable PANDA_MAX_LEN KMERSEEN_SIZE a
  | set (op : ConfigOp ℝ) (a : panda_assembler ℝ)
      (h : Reachable PANDA_MAX_LEN KMERSEEN_SIZE a) :
      Reachable PANDA_MAX_LEN KMERSEEN_SIZE (op.apply PANDA_MAX_LEN Real.log a)
  | copy (dest src : panda_assembler ℝ)
      (hdest : Reachable PANDA_MAX_LEN KMERSEEN_SIZE dest)
      (hsrc : Reachable PANDA_MAX_LEN KMERSEEN_SIZE src) :
      Reachable PANDA_MAX_LEN KMERSEEN_SIZE
        (panda_assembler_copy_configuration PANDA_MAX_LEN dest src)

/-- A block of memory with every field zero, as a concrete value for the contents of a fresh
allocation. -/
def zeroed (R : Type) [LinearOrderedField R] : panda_assembler R where
  refcnt := 0
  next := none
  next_data := none
  next_destroy := none
  logger := none
  logger_data := none
  logger_destroy := none
  rejected := none
  modules := []
  result_forward := none
  result_reverse := none
  forward_primer := fun _ => 0
  forward_primer_length := 0
  reverse_primer := fun _ => 0
  reverse_primer_length := 0
  forward_trim := 0
  reverse_trim := 0
  nofpcount := 0
  norpcount := 0
  okcount := 0
  lowqcount := 0
  degencount := 0
  noalgncount := 0
  count := 0
  no_n := false
  kmerseen := []
  threshold := 0
  q := 0
  pmatch := 0
  pmismatch := 0
  minoverlap := 0

/-! ## The FASTQ argument record (`args_fastq.c`) -/

/-- The members of the enumeration `PandaTagging` (declared in `pandaseq.h`) that
`args_fastq.c` names. -/
inductive PandaTagging where
  | PANDA_TAG_PRESENT
  | PANDA_TAG_OPTIONAL
  deriving DecidableEq, Repr

/-- Embedding of `struct panda_args_fastq`.  A file name is a C string or `NULL`; the
`FILE *` is an opaque pointer. -/
structure panda_args_fastq where
  fastq : Bool
  bzip : Bool
  forward_filename : Option String
  no_algn_file : Ptr
  policy : PandaTagging
  qualmin : Int
  reverse_filename : Option String
  deriving DecidableEq, Repr

/-- Embedding of `panda_args_fastq_new`.  `mem` is the indeterminate contents of the block
returned by `malloc`, whose result the C code does not test; the field `fastq` is not
assigned. -/
def panda_args_fastq_new (mem : panda_args_fastq) : panda_args_fastq :=
  { mem with
    bzip := false
    forward_filename := none
    no_algn_file := none
    policy := PandaTagging.PANDA_TAG_PRESENT
    qualmin := 33
    reverse_filename := none }

/-- Embedding of `panda_args_fastq_tweak`: the returned flag and the record afterwards.
`fopen` stands for the C library call `fopen(argument, "w")` in the environment of the
call. -/
def panda_args_fastq_tweak (fopen : Option String → Ptr) (data : panda_args_fastq)
    (flag : Char) (argument : Option String) : Bool × panda_args_fastq :=
  if flag = '6' then
    (true, { data with qualmin := 64 })
  else if flag = 'B' then
    (true, { data with policy := PandaTagging.PANDA_TAG_OPTIONAL })
  else if flag = 'f' then
    (true, { data with forward_filename := argument })
  else if flag = 'j' then
    (true, { data with bzip := true })
  else if flag = 'r' then
    (true, { data with reverse_filename := argument })
  else if flag = 'u' then
    let data := { data with no_algn_file := fopen argument }
    (data.no_algn_file != none, data)
  else
    (false, data)

/-- One call of `panda_args_fastq_tweak`: its flag, its argument and the behaviour of `fopen`
at the time of the call. -/
structure TweakCall where
  fopen : Option String → Ptr
  flag : Char
  argument : Option String

/-- Runs a sequence of `panda_args_fastq_tweak` calls, oldest first, on the record. -/
def run_tweaks : List TweakCall → panda_args_fastq → panda_args_fastq
  | [], data => data
  | c :: cs, data => run_tweaks cs (panda_args_fastq_tweak c.fopen data c.flag c.argument).2

/-- The calls that `panda_args_fastq_free` makes: `fclose` on a file, and `free` on the
record. -/
inductive FreeCall where
  | fclose (file : Nat)
  | free_data
  deriving DecidableEq, Repr

/-- Embedding of `panda_args_fastq_free`: the calls it makes, in program order. -/
def panda_args_fastq_free (data : panda_args_fastq) : List FreeCall :=
  (match data.no_algn_file with
    | some file => [FreeCall.fclose file]
    | none => []) ++ [FreeCall.free_data]

/-- A function pointer held by an output cell of `panda_args_fastq_opener`: one of the two
functions the opener names, or any other address. -/
inductive Callback where
  | panda_output_fail
  | fclose
  | other (address : Nat)
  deriving DecidableEq, Repr

/-- The cells behind the out-parameters `fail`, `fail_data`, `fail_destroy`, `next_data` and
`next_destroy` of `panda_args_fastq_opener`; `none` is `NULL`. -/
structure opener_outputs where
  fail : Option Callback
  fail_data : Ptr
  fail_destroy : Option Callback
  next_data : Ptr
  next_destroy : Option Callback
  deriving DecidableEq, Repr

/-- The shape of `panda_open_bz2` and `panda_open_gz` (declared in `pandaseq.h`): from the two
file names, the logger, the quality offset, the tagging policy and the contents of
`*next_data` and `*next_destroy` before the call, the returned `PandaNextSeq` and the
contents of the two cells after the call. -/
abbrev PandaOpen :=
  Option String → Option String → Ptr → Int → PandaTagging → Ptr → Option Callback →
    Ptr × Ptr × Option Callback

/-- Embedding of `panda_args_fastq_opener`: the returned `PandaNextSeq` (`none` for `NULL`),
the record afterwards and the output cells afterwards.  The two open functions are
arguments. -/
def panda_args_fastq_opener (panda_open_bz2 panda_open_gz : PandaOpen)
    (data : panda_args_fastq) (logger : Ptr) (out : opener_outputs) :
    Ptr × panda_args_fastq × opener_outputs :=
  if data.forward_filename = none ∨ data.reverse_filename = none then
    (none, data, out)
  else
    let r : panda_args_fastq × opener_outputs :=
      if data.no_algn_file ≠ none then
        ({ data with no_algn_file := none },
          { out with
            fail := some Callback.panda_output_fail
            fail_data := data.no_algn_file
            fail_destroy := some Callback.fclose })
      else
        (data, { out with fail := none, fail_data := none, fail_destroy := none })
    let data := r.1
    let out := r.2
    let opened :=
      if data.bzip then
        panda_open_bz2 data.forward_filename data.reverse_filename logger data.qualmin
          data.policy out.next_data out.next_destroy
      else
        panda_open_gz data.forward_filename data.reverse_filename logger data.qualmin
          data.policy out.next_data out.next_destroy
    (opened.1, data, { out with next_data := opened.2.1, next_destroy := opened.2.2 })

/-- Embedding of `panda_args_fastq_setup`. -/
def panda_args_fastq_setup {R : Type} (_data : panda_args_fastq)
    (_assembler : panda_assembler R) : Bool :=
  true

/-! ## Primers and trims -/

/-- After the copy loop the first `n` cells hold the sequence and the others are as before. -/
theorem copy_primer_apply (dst sequence : Nat → panda_nt) (n i : Nat) :
    copy_primer dst sequence n i = if i < n then sequence i else dst i := by
  induction n with
  | zero => simp [copy_primer]
  | succ n ih =>
    simp only [copy_primer, Function.update_apply, ih]
    by_cases h1 : i = n
    · subst h1; simp
    · by_cases h2 : i < n
      · have h3 : i < n + 1 := by omega
        simp [h1, h2, h3]
      · have h3 : ¬ i < n + 1 := by omega
        simp [h1, h2, h3]

/-- C1 (as stated, refuted): with `PANDA_MAX_LEN = 512`, a primer of length `L = 512`
satisfies `L <= MAX_LEN`, yet `set_forward_primer` leaves a forward trim of 5 in place and
`set_reverse_primer` leaves a reverse trim of 5 in place. -/
theorem set_primer_max_len_keeps_trim :
    (512 : Nat) ≤ 512 ∧
    panda_assembler_get_forward_trim
      (panda_assembler_set_forward_primer 512 { zeroed ℝ with forward_trim := 5 }
        (fun _ => 1) 512) = 5 ∧
    panda_assembler_get_reverse_trim
      (panda_assembler_set_reverse_primer 512 { zeroed ℝ with reverse_trim := 5 }
        (fun _ => 1) 512) = 5 := by
  refine ⟨le_refl _, ?_, ?_⟩
  · simp [panda_assembler_set_forward_primer, panda_assembler_get_forward_trim]
  · simp [panda_assembler_set_reverse_primer, panda_assembler_get_reverse_trim]

/-- C1 (amended): for every assembler state, every trim count `n` and every primer sequence
of length `L < PANDA_MAX_LEN`: after `set_forward_trim(n)` the forward trim is `n` and the
forward primer length is 0; after `set_forward_primer(seq, L)` the forward trim is 0; and the
same holds for the reverse end. -/
theorem set_primer_trim_exclusive (PANDA_MAX_LEN : Nat) (a : panda_assembler ℝ) (n : Nat)
    (seq : Nat → panda_nt) (L : Nat) (hL : L < PANDA_MAX_LEN) :
    panda_assembler_get_forward_trim (panda_assembler_set_forward_trim a n) = n ∧
    (panda_assembler_get_forward_primer (panda_assembler_set_forward_trim a n)).2 = 0 ∧
    panda_assembler_get_forward_trim
      (panda_assembler_set_forward_primer PANDA_MAX_LEN a seq L) = 0 ∧
    panda_assembler_get_reverse_trim (panda_assembler_set_reverse_trim a n) = n ∧
    (panda_assembler_get_reverse_primer (panda_assembler_set_reverse_trim a n)).2 = 0 ∧
    panda_assembler_get_reverse_trim
      (panda_assembler_set_reverse_primer PANDA_MAX_LEN a seq L) = 0 := by
  simp [panda_assembler_get_forward_trim, panda_assembler_set_forward_trim,
    panda_assembler_get_forward_primer, panda_assembler_set_forward_primer,
    panda_assembler_get_reverse_trim, panda_assembler_set_reverse_trim,
    panda_assembler_get_reverse_primer, panda_assembler_set_reverse_primer, hL]

/-- C1 (amended), at `PANDA_MAX_LEN = 512`, a state with both trims 5, `n = 7` and a primer of
length 3. -/
theorem set_primer_trim_exclusive_witness :
    (3 : Nat) < 512 ∧
    panda_assembler_get_forward_trim
      (panda_assembler_set_forward_primer 512
        { zeroed ℝ with forward_trim := 5, reverse_trim := 5 } (fun _ => 1) 3) = 0 ∧
    panda_assembler_get_reverse_trim
      (panda_assembler_set_reverse_primer 512
        { zeroed ℝ with forward_trim := 5, reverse_trim := 5 } (fun _ => 1) 3) = 0 :=
  have h := set_primer_trim_exclusive 512
    { zeroed ℝ with forward_trim := 5, reverse_trim := 5 } 7 (fun _ => 1) 3 (by decide)
  ⟨by decide, h.2.2.1, h.2.2.2.2.2⟩

/-- C2 (as stated, refuted): with `PANDA_MAX_LEN = 512`, a primer of length `L = 512`
satisfies `1 <= L <= MAX_LEN`, yet after `set_forward_primer` the getter reports length 0
and a null buffer; likewise for the reverse primer. -/
theorem set_primer_max_len_not_stored :
    (1 : Nat) ≤ 512 ∧ (512 : Nat) ≤ 512 ∧
    panda_assembler_get_forward_primer
      (panda_assembler_set_forward_primer 512 (zeroed ℝ) (fun _ => 1) 512) = (none, 0) ∧
    panda_assembler_get_reverse_primer
      (panda_assembler_set_reverse_primer 512 (zeroed ℝ) (fun _ => 1) 512) = (none, 0) := by
  refine ⟨by decide, le_refl _, ?_, ?_⟩
  · simp [panda_assembler_set_forward_primer, panda_assembler_get_forward_primer, zeroed]
  · simp [panda_assembler_set_reverse_primer, panda_assembler_get_reverse_primer, zeroed]

/-- C2 (amended): for every primer sequence `seq` of length `L` with
`1 <= L < PANDA_MAX_LEN`, `set_forward_primer(seq, L)` stores it: a following
`get_forward_primer` reports length `L` and a non-null buffer whose first `L` codes equal
`seq`; likewise for the reverse primer.  For length 0 the getters report length 0 and a null
buffer. -/
theorem set_get_primer (PANDA_MAX_LEN : Nat) (a : panda_assembler ℝ)
    (seq : Nat → panda_nt) (L : Nat) (h1 : 1 ≤ L) (hL : L < PANDA_MAX_LEN) :
    ((panda_assembler_get_forward_primer
        (panda_assembler_set_forward_primer PANDA_MAX_LEN a seq L)).2 = L ∧
      ∃ buf, (panda_assembler_get_forward_primer
        (panda_assembler_set_forward_primer PANDA_MAX_LEN a seq L)).1 = some buf ∧
        ∀ i, i < L → buf i = seq i) ∧
    ((panda_assembler_get_reverse_primer
        (panda_assembler_set_reverse_primer PANDA_MAX_LEN a seq L)).2 = L ∧
      ∃ buf, (panda_assembler_get_reverse_primer
        (panda_assembler_set_reverse_primer PANDA_MAX_LEN a seq L)).1 = some buf ∧
        ∀ i, i < L → buf i = seq i) ∧
    panda_assembler_get_forward_primer
      (panda_assembler_set_forward_primer PANDA_MAX_LEN a seq 0) = (none, 0) ∧
    panda_assembler_get_reverse_primer
      (panda_assembler_set_reverse_primer PANDA_MAX_LEN a seq 0) = (none, 0) := by
  have h0 : 0 < PANDA_MAX_LEN := by omega
  have hne : L ≠ 0 := by omega
  refine ⟨⟨?_, ?_⟩, ⟨?_, ?_⟩, ?_, ?_⟩
  · simp [panda_assembler_set_forward_primer, panda_assembler_get_forward_primer, hL]
  · refine ⟨copy_primer a.forward_primer seq L, ?_, ?_⟩
    · simp [panda_assembler_set_forward_primer, panda_assembler_get_forward_primer, hL, hne]
    · intro i hi
      simp [copy_primer_apply, hi]
  · simp [panda_assembler_set_reverse_primer, panda_assembler_get_reverse_primer, hL]
  · refine ⟨copy_primer a.reverse_primer seq L, ?_, ?_⟩
    · simp [panda_assembler_set_reverse_primer, panda_assembler_get_reverse_primer, hL, hne]
    · intro i hi
      simp [copy_primer_apply, hi]
  · simp [panda_assembler_set_forward_primer, panda_assembler_get_forward_primer, h0]
  · simp [panda_assembler_set_reverse_primer, panda_assembler_get_reverse_primer, h0]

/-- C2 (amended), at `PANDA_MAX_LEN = 512` and the primer `1, 2, 4` of length 3: the getter
reports length 3. -/
theorem set_get_primer_witness :
    (1 : Nat) ≤ 3 ∧ (3 : Nat) < 512 ∧
    (panda_assembler_get_forward_primer
      (panda_assembler_set_forward_primer 512 (zeroed ℝ) (fun i => 2 ^ i) 3)).2 = 3 ∧
    (panda_assembler_get_reverse_primer
      (panda_assembler_set_reverse_primer 512 (zeroed ℝ) (fun i => 2 ^ i) 3)).2 = 3 :=
  have h := set_get_primer 512 (zeroed ℝ) (fun i => 2 ^ i) 3 (by decide) (by decide)
  ⟨by decide, by decide, h.1.1, h.2.1.1⟩

/-! ## Guarded configuration fields -/

/-- Adding the modules of a chain one by one extends the module list and nothing else. -/
theorem foldl_add_module {R : Type} (ms : List PandaModule) (dest : panda_assembler R) :
    ms.foldl panda_assembler_add_module dest = { dest with modules := dest.modules ++ ms } := by
  induction ms generalizing dest with
  | nil => simp
  | cons m ms ih => simp [List.foldl, ih, panda_assembler_add_module]

/-- The fields that `panda_assembler_copy_configuration` takes from `src`, and the error
estimation, which it leaves as it is in `dest`. -/
theorem copy_configuration_fields (PANDA_MAX_LEN : Nat) (dest src : panda_assembler ℝ) :
    (panda_assembler_copy_configuration PANDA_MAX_LEN dest src).threshold = src.threshold ∧
    (panda_assembler_copy_configuration PANDA_MAX_LEN dest src).minoverlap = src.minoverlap ∧
    (panda_assembler_copy_configuration PANDA_MAX_LEN dest src).q = dest.q := by
  simp only [panda_assembler_copy_configuration, foldl_add_module,
    panda_assembler_set_forward_primer, panda_assembler_set_reverse_primer]
  refine ⟨trivial, trivial, ?_⟩
  split_ifs <;> rfl

/-- The block that `panda_assembler_new` returns, in terms of the block it was given: the
error estimation and the threshold are set, the minimum overlap is the one found in the
block. -/
theorem new_fields (PANDA_MAX_LEN KMERSEEN_SIZE : Nat) (mem : Option (panda_assembler ℝ))
    (next next_data next_destroy logger logger_data logger_destroy : Ptr)
    (a : panda_assembler ℝ)
    (h : panda_assembler_new PANDA_MAX_LEN KMERSEEN_SIZE Real.log mem next next_data
      next_destroy logger logger_data logger_destroy = some a) :
    ∃ m, mem = some m ∧ a.q = 0.36 ∧ a.threshold = Real.log 0.6 ∧
      a.minoverlap = m.minoverlap ∧ a.refcnt = 1 ∧
      a.count = 0 ∧ a.okcount = 0 ∧ a.lowqcount = 0 ∧ a.degencount = 0 ∧
      a.noalgncount = 0 ∧ a.nofpcount = 0 ∧ a.norpcount = 0 := by
  cases mem with
  | none => simp [panda_assembler_new] at h
  | some m =>
    refine ⟨m, rfl, ?_⟩
    have hq : (0.36 : ℝ) > 0 ∧ (0.36 : ℝ) < 1 := by norm_num
    have ht : (0.6 : ℝ) > 0 ∧ (0.6 : ℝ) < 1 := by norm_num
    simp only [panda_assembler_new, panda_assembler_set_error_estimation,
      panda_assembler_set_threshold, panda_assembler_set_minimum_overlap, if_pos hq, if_pos ht,
      Option.some.injEq] at h
    subst h
    simp

/-- C3 (the code at the failing input): `panda_assembler_new` with `PANDA_MAX_LEN = 512` on a
fresh block whose `minoverlap` cell holds 0 returns an assembler, a reachable state, whose
`get_minimum_overlap` is 0: the constructor's call `set_minimum_overlap(assembler, 1)` is
rejected by the setter's guard `overlap > 1`, so the cell is never written. -/
theorem new_minimum_overlap_unset :
    ∃ a, panda_assembler_new 512 16 Real.log (some (zeroed ℝ)) none none none none none none
        = some a ∧
      Reachable 512 16 a ∧
      panda_assembler_get_minimum_overlap a = 0 ∧
      ¬ (1 < panda_assembler_get_minimum_overlap a) := by
  cases hnew : panda_assembler_new 512 16 Real.log (some (zeroed ℝ)) none none none none
      none none with
  | none => simp [panda_assembler_new] at hnew
  | some a =>
    obtain ⟨m, hm, -, -, hmin, -⟩ := new_fields 512 16 _ _ _ _ _ _ _ a hnew
    have hm0 : m = zeroed ℝ := by
      simpa using hm.symm
    have h0 : panda_assembler_get_minimum_overlap a = 0 := by
      simp [panda_assembler_get_minimum_overlap, hmin, hm0, zeroed]
    refine ⟨a, rfl, Reachable.new _ _ _ _ _ _ _ a hnew, h0, ?_⟩
    rw [h0]
    decide

/-- The stored log-threshold of a reachable state is the logarithm of a number strictly
between 0 and 1, and its error estimation lies strictly between 0 and 1. -/
theorem reachable_threshold_q (PANDA_MAX_LEN KMERSEEN_SIZE : Nat) (a : panda_assembler ℝ)
    (h : Reachable PANDA_MAX_LEN KMERSEEN_SIZE a) :
    (∃ t : ℝ, 0 < t ∧ t < 1 ∧ a.threshold = Real.log t) ∧ 0 < a.q ∧ a.q < 1 := by
  induction h with
  | new mem next next_data next_destroy logger logger_data logger_destroy a h =>
    obtain ⟨m, -, hq, ht, -⟩ := new_fields _ _ _ _ _ _ _ _ _ a h
    refine ⟨⟨0.6, by norm_num, by norm_num, ht⟩, ?_, ?_⟩ <;> rw [hq] <;> norm_num
  | set op a _ ih =>
    obtain ⟨⟨t, ht0, ht1, ht⟩, hq0, hq1⟩ := ih
    cases op with
    | set_minimum_overlap overlap =>
      simp only [ConfigOp.apply, panda_assembler_set_minimum_overlap]
      split_ifs <;> exact ⟨⟨t, ht0, ht1, ht⟩, hq0, hq1⟩
    | set_threshold threshold =>
      simp only [ConfigOp.apply, panda_assembler_set_threshold]
      split_ifs with hg
      · exact ⟨⟨threshold, hg.1, hg.2, rfl⟩, hq0, hq1⟩
      · exact ⟨⟨t, ht0, ht1, ht⟩, hq0, hq1⟩
    | set_error_estimation q =>
      simp only [ConfigOp.apply, panda_assembler_set_error_estimation]
      split_ifs with hg
      · exact ⟨⟨t, ht0, ht1, ht⟩, hg.1, hg.2⟩
      · exact ⟨⟨t, ht0, ht1, ht⟩, hq0, hq1⟩
    | set_disallow_degenerates allow => exact ⟨⟨t, ht0, ht1, ht⟩, hq0, hq1⟩
    | set_forward_primer sequence length =>
      simp only [ConfigOp.apply, panda_assembler_set_forward_primer]
      split_ifs <;> exact ⟨⟨t, ht0, ht1, ht⟩, hq0, hq1⟩
    | set_reverse_primer sequence length =>
      simp only [ConfigOp.apply, panda_assembler_set_reverse_primer]
      split_ifs <;> exact ⟨⟨t, ht0, ht1, ht⟩, hq0, hq1⟩
    | set_forward_trim trim => exact ⟨⟨t, ht0, ht1, ht⟩, hq0, hq1⟩
    | set_reverse_trim trim => exact ⟨⟨t, ht0, ht1, ht⟩, hq0, hq1⟩
    | add_module module => exact ⟨⟨t, ht0, ht1, ht⟩, hq0, hq1⟩
  | copy dest src _ _ ihd ihs =>
    obtain ⟨hthr, -, hq⟩ := copy_configuration_fields PANDA_MAX_LEN dest src
    rw [hthr, hq]
    exact ⟨ihs.1, ihd.2⟩

/-- C4: in every assembler state reachable from `panda_assembler_new` by the setters and by
`copy_configuration` from another reachable assembler, `get_threshold()` lies strictly
between 0 and 1, the stored log-threshold is negative, and `get_error_estimation()` lies
strictly between 0 and 1 (over the reals). -/
theorem reachable_threshold_error_estimation_in_range (PANDA_MAX_LEN KMERSEEN_SIZE : Nat)
    (a : panda_assembler ℝ) (h : Reachable PANDA_MAX_LEN KMERSEEN_SIZE a) :
    0 < panda_assembler_get_threshold Real.exp a ∧
    panda_assembler_get_threshold Real.exp a < 1 ∧
    a.threshold < 0 ∧
    0 < panda_assembler_get_error_estimation a ∧
    panda_assembler_get_error_estimation a < 1 := by
  obtain ⟨⟨t, ht0, ht1, ht⟩, hq0, hq1⟩ :=
    reachable_threshold_q PANDA_MAX_LEN KMERSEEN_SIZE a h
  have hexp : panda_assembler_get_threshold Real.exp a = t := by
    simp [panda_assembler_get_threshold, ht, Real.exp_log ht0]
  refine ⟨by rw [hexp]; exact ht0, by rw [hexp]; exact ht1, ?_, hq0, hq1⟩
  rw [ht]
  exact Real.log_neg ht0 ht1

/-- C4, at the state obtained from a fresh assembler (`PANDA_MAX_LEN = 512`, zeroed block) by
`set_threshold(0.9)` and `set_error_estimation(2)`, the latter out of range. -/
theorem reachable_threshold_error_estimation_in_range_witness :
    ∃ a, panda_assembler_new 512 16 Real.log (some (zeroed ℝ)) none none none none none none
        = some a ∧
      0 < panda_assembler_get_threshold Real.exp
        (panda_assembler_set_error_estimation Real.log
          (panda_assembler_set_threshold Real.log a 0.9) 2) ∧
      panda_assembler_get_error_estimation
        (panda_assembler_set_error_estimation Real.log
          (panda_assembler_set_threshold Real.log a 0.9) 2) < 1 := by
  cases hnew : panda_assembler_new 512 16 Real.log (some (zeroed ℝ)) none none none none
      none none with
  | none => simp [panda_assembler_new] at hnew
  | some a =>
    have hr : Reachable 512 16
        (panda_assembler_set_error_estimation Real.log
          (panda_assembler_set_threshold Real.log a 0.9) 2) :=
      Reachable.set (ConfigOp.set_error_estimation 2) _
        (Reachable.set (ConfigOp.set_threshold 0.9) _
          (Reachable.new _ _ _ _ _ _ _ a hnew))
    have h := reachable_threshold_error_estimation_in_range 512 16 _ hr
    exact ⟨a, rfl, h.1, h.2.2.2.2⟩

/-- C6: out-of-range configuration is a no-op.  For every assembler state,
`set_threshold(t)` with `t <= 0` or `t >= 1`, `set_error_estimation(q)` with `q <= 0` or
`q >= 1`, and `set_minimum_overlap(n)` with `n <= 1` or `n >= PANDA_MAX_LEN` each return the
state unchanged. -/
theorem out_of_range_is_noop (PANDA_MAX_LEN : Nat) (a : panda_assembler ℝ) (t q : ℝ) (n : Int)
    (ht : t ≤ 0 ∨ 1 ≤ t) (hq : q ≤ 0 ∨ 1 ≤ q) (hn : n ≤ 1 ∨ (PANDA_MAX_LEN : Int) ≤ n) :
    panda_assembler_set_threshold Real.log a t = a ∧
    panda_assembler_set_error_estimation Real.log a q = a ∧
    panda_assembler_set_minimum_overlap PANDA_MAX_LEN a n = a := by
  have h1 : ¬ (t > 0 ∧ t < 1) := by
    rintro ⟨h0, h1⟩
    rcases ht with h | h <;> linarith
  have h2 : ¬ (q > 0 ∧ q < 1) := by
    rintro ⟨h0, h1⟩
    rcases hq with h | h <;> linarith
  have h3 : ¬ (n > 1 ∧ n < (PANDA_MAX_LEN : Int)) := by
    rintro ⟨h0, h1⟩
    rcases hn with h | h <;> omega
  simp [panda_assembler_set_threshold, panda_assembler_set_error_estimation,
    panda_assembler_set_minimum_overlap, h1, h2, h3]

/-- C6, at `PANDA_MAX_LEN = 512`, the zeroed state, `t = 1`, `q = 0` and `n = 512`. -/
theorem out_of_range_is_noop_witness :
    ((1 : ℝ) ≤ 0 ∨ (1 : ℝ) ≤ 1) ∧ ((0 : ℝ) ≤ 0 ∨ (1 : ℝ) ≤ 0) ∧
    ((512 : Int) ≤ 1 ∨ ((512 : Nat) : Int) ≤ 512) ∧
    panda_assembler_set_threshold Real.log (zeroed ℝ) 1 = zeroed ℝ ∧
    panda_assembler_set_error_estimation Real.log (zeroed ℝ) 0 = zeroed ℝ ∧
    panda_assembler_set_minimum_overlap 512 (zeroed ℝ) 512 = zeroed ℝ :=
  ⟨Or.inr (le_refl _), Or.inl (le_refl _), Or.inr (le_refl _),
    out_of_range_is_noop 512 (zeroed ℝ) 1 0 512 (Or.inr (le_refl _)) (Or.inl (le_refl _))
      (Or.inr (le_refl _))⟩

/-! ## Reference counting -/

/-- Running two sequences of reference-count calls one after the other. -/
theorem run_refs_append {R : Type} (pre suf : List RefOp) (a : panda_assembler R) :
    run_refs (pre ++ suf) a
      = ((run_refs suf (run_refs pre a).1).1,
          (run_refs pre a).2 ++ (run_refs suf (run_refs pre a).1).2) := by
  induction pre generalizing a with
  | nil => simp [run_refs]
  | cons op pre ih => simp [run_refs, ih, List.append_assoc]

/-- The count after a sequence of calls is the count before plus the number of `ref` calls
minus the number of `unref` calls. -/
theorem run_refs_refcnt {R : Type} (ops : List RefOp) (a : panda_assembler R) :
    (run_refs ops a).1.refcnt
      = a.refcnt + (ops.count RefOp.ref : Int) - (ops.count RefOp.unref : Int) := by
  induction ops generalizing a with
  | nil => simp [run_refs]
  | cons op ops ih =>
    cases op with
    | ref =>
      simp only [run_refs, ih, RefOp.apply, panda_assembler_ref]
      simp
      ring
    | unref =>
      simp only [run_refs, ih, RefOp.apply, panda_assembler_unref]
      have e : ∀ (x : panda_assembler R) (l : List Destroyed) (c : Prop) [Decidable c],
          (if c then (x, l) else (x, ([] : List Destroyed))).1 = x := by
        intro x l c _
        split_ifs <;> rfl
      rw [e]
      simp
      ring

/-- A live sequence of calls stays live when cut short, and the count is positive after
every proper initial part. -/
theorem refs_live_prefix {R : Type} (pre suf : List RefOp) (a : panda_assembler R)
    (h : refs_live (pre ++ suf) a = true) :
    refs_live pre a = true ∧ (suf ≠ [] → 0 < (run_refs pre a).1.refcnt) := by
  induction pre generalizing a with
  | nil =>
    refine ⟨rfl, fun hs => ?_⟩
    cases suf with
    | nil => exact absurd rfl hs
    | cons op suf =>
      simp only [List.nil_append, refs_live, Bool.and_eq_true, decide_eq_true_eq] at h
      simpa [run_refs] using h.1
  | cons op pre ih =>
    simp only [List.cons_append, refs_live, Bool.and_eq_true, decide_eq_true_eq] at h
    obtain ⟨h1, h2⟩ := ih (op.apply a).1 h.2
    refine ⟨?_, fun hs => ?_⟩
    · simp [refs_live, h.1, h1]
    · simpa [run_refs] using h2 hs

/-- Starting from a positive count, a live sequence of calls has made the destructor calls
once if the count has reached 0, and none otherwise. -/
theorem run_refs_destroyed {R : Type} (ops : List RefOp) (a : panda_assembler R)
    (hpos : 0 < a.refcnt) (h : refs_live ops a = true) :
    (run_refs ops a).2 = if (run_refs ops a).1.refcnt = 0 then destroy_all else [] := by
  induction ops generalizing a with
  | nil =>
    have : a.refcnt ≠ 0 := by omega
    simp [run_refs, this]
  | cons op ops ih =>
    simp only [refs_live, Bool.and_eq_true, decide_eq_true_eq] at h
    by_cases h1 : 0 < (op.apply a).1.refcnt
    · have hnone : (op.apply a).2 = [] := by
        cases op with
        | ref => rfl
        | unref =>
          simp only [RefOp.apply, panda_assembler_unref] at h1 ⊢
          split_ifs with hc
          · rw [if_pos hc] at h1
            simp only at h1
            omega
          · rfl
      simp only [run_refs, hnone, List.nil_append]
      exact ih (op.apply a).1 h1 h.2
    · cases ops with
      | nil =>
        cases op with
        | ref =>
          exfalso
          apply h1
          simp only [RefOp.apply, panda_assembler_ref]
          omega
        | unref =>
          simp only [run_refs, RefOp.apply, panda_assembler_unref, List.append_nil,
            destroy_all]
          split_ifs <;> simp_all
      | cons op2 ops =>
        simp only [refs_live, Bool.and_eq_true, decide_eq_true_eq] at h
        exact absurd h.2.1 h1

/-- C8: reference-count lifecycle.  A new assembler has count 1, `ref` adds 1 and `unref`
subtracts 1.  For every sequence of `ref`/`unref` calls on a new assembler in which the count
is positive before each call: the count afterwards is 1 plus the refs minus the unrefs; the
destructor calls (k-mer table, modules, read-pair source, logger, the block itself) have been
made once each if the count is 0 and not at all otherwise; the count is 0 exactly when the
unrefs number the refs plus one, and then the last call is an `unref`; and after every
proper initial part of the sequence the count is positive, the unrefs number at most the
refs, and no destructor call has been made. -/
theorem refcount_lifecycle (PANDA_MAX_LEN KMERSEEN_SIZE : Nat)
    (mem : Option (panda_assembler ℝ))
    (next next_data next_destroy logger logger_data logger_destroy : Ptr)
    (a0 : panda_assembler ℝ)
    (hnew : panda_assembler_new PANDA_MAX_LEN KMERSEEN_SIZE Real.log mem next next_data
      next_destroy logger logger_data logger_destroy = some a0)
    (ops : List RefOp) (hlive : refs_live ops a0 = true) :
    a0.refcnt = 1 ∧
    (∀ a : panda_assembler ℝ, (panda_assembler_ref a).refcnt = a.refcnt + 1 ∧
      (panda_assembler_unref a).1.refcnt = a.refcnt - 1) ∧
    (run_refs ops a0).1.refcnt
      = 1 + (ops.count RefOp.ref : Int) - (ops.count RefOp.unref : Int) ∧
    (run_refs ops a0).2
      = (if (run_refs ops a0).1.refcnt = 0 then
          [Destroyed.kmerseen, Destroyed.modules, Destroyed.next, Destroyed.logger,
            Destroyed.assembler]
        else []) ∧
    ((run_refs ops a0).1.refcnt = 0 ↔ ops.count RefOp.unref = ops.count RefOp.ref + 1) ∧
    ((run_refs ops a0).1.refcnt = 0 → ∃ pre, ops = pre ++ [RefOp.unref]) ∧
    (∀ pre suf, ops = pre ++ suf → suf ≠ [] →
      0 < (run_refs pre a0).1.refcnt ∧ pre.count RefOp.unref ≤ pre.count RefOp.ref ∧
      (run_refs pre a0).2 = []) := by
  obtain ⟨m, -, -, -, -, hcnt, -⟩ := new_fields _ _ _ _ _ _ _ _ _ a0 hnew
  have hpos : 0 < a0.refcnt := by omega
  have hfinal := run_refs_refcnt ops a0
  rw [hcnt] at hfinal
  have hparts : ∀ pre suf, ops = pre ++ suf → suf ≠ [] →
      0 < (run_refs pre a0).1.refcnt ∧ pre.count RefOp.unref ≤ pre.count RefOp.ref ∧
      (run_refs pre a0).2 = [] := by
    intro pre suf hops hsuf
    rw [hops] at hlive
    obtain ⟨hl, hp⟩ := refs_live_prefix pre suf a0 hlive
    have hp := hp hsuf
    have hd := run_refs_destroyed pre a0 hpos hl
    have hne : (run_refs pre a0).1.refcnt ≠ 0 := by omega
    rw [if_neg hne] at hd
    have hc := run_refs_refcnt pre a0
    rw [hcnt] at hc
    refine ⟨hp, ?_, hd⟩
    omega
  refine ⟨hcnt, ?_, hfinal, ?_, ?_, ?_, hparts⟩
  · intro a
    refine ⟨rfl, ?_⟩
    simp only [panda_assembler_unref]
    split_ifs <;> rfl
  · exact run_refs_destroyed ops a0 hpos hlive
  · rw [hfinal]
    omega
  · intro hz
    rcases List.eq_nil_or_concat ops with hnil | ⟨pre, op, hops⟩
    · rw [hnil] at hz
      simp only [run_refs] at hz
      omega
    · rw [List.concat_eq_append] at hops
      cases op with
      | unref => exact ⟨pre, hops⟩
      | ref =>
        exfalso
        have hp := (hparts pre [RefOp.ref] hops (by simp)).1
        rw [hops, run_refs_append] at hz
        simp only [run_refs, RefOp.apply, panda_assembler_ref] at hz
        omega

/-- C8, at the calls `ref, unref, unref` on a new assembler (`PANDA_MAX_LEN = 512`, zeroed
block): the count ends at 0 and each resource has been destroyed once. -/
theorem refcount_lifecycle_witness :
    ∃ a0, panda_assembler_new 512 16 Real.log (some (zeroed ℝ)) none none none none none none
        = some a0 ∧
      refs_live [RefOp.ref, RefOp.unref, RefOp.unref] a0 = true ∧
      (run_refs [RefOp.ref, RefOp.unref, RefOp.unref] a0).1.refcnt
        = 1 + (([RefOp.ref, RefOp.unref, RefOp.unref].count RefOp.ref : Nat) : Int)
          - (([RefOp.ref, RefOp.unref, RefOp.unref].count RefOp.unref : Nat) : Int) := by
  cases hnew : panda_assembler_new 512 16 Real.log (some (zeroed ℝ)) none none none none
      none none with
  | none => simp [panda_assembler_new] at hnew
  | some a0 =>
    obtain ⟨m, -, -, -, -, hcnt, -⟩ := new_fields _ _ _ _ _ _ _ _ _ a0 hnew
    have hlive : refs_live [RefOp.ref, RefOp.unref, RefOp.unref] a0 = true := by
      simp [refs_live, RefOp.apply, panda_assembler_ref, panda_assembler_unref, hcnt]
    exact ⟨a0, rfl, hlive,
      (refcount_lifecycle 512 16 _ _ _ _ _ _ _ a0 hnew _ hlive).2.2.1⟩

/-! ## Counters -/

/-- No setter changes a counter. -/
theorem counters_apply (PANDA_MAX_LEN : Nat) (op : ConfigOp ℝ) (a : panda_assembler ℝ) :
    counters (op.apply PANDA_MAX_LEN Real.log a) = counters a := by
  cases op with
  | set_minimum_overlap overlap =>
    simp only [ConfigOp.apply, panda_assembler_set_minimum_overlap]
    split_ifs <;> rfl
  | set_threshold threshold =>
    simp only [ConfigOp.apply, panda_assembler_set_threshold]
    split_ifs <;> rfl
  | set_error_estimation q =>
    simp only [ConfigOp.apply, panda_assembler_set_error_estimation]
    split_ifs <;> rfl
  | set_disallow_degenerates allow => rfl
  | set_forward_primer sequence length =>
    simp only [ConfigOp.apply, panda_assembler_set_forward_primer]
    split_ifs <;> rfl
  | set_reverse_primer sequence length =>
    simp only [ConfigOp.apply, panda_assembler_set_reverse_primer]
    split_ifs <;> rfl
  | set_forward_trim trim => rfl
  | set_reverse_trim trim => rfl
  | add_module module => rfl

/-- Copying a configuration into `dest` changes no counter of `dest`. -/
theorem counters_copy_configuration (PANDA_MAX_LEN : Nat) (dest src : panda_assembler ℝ) :
    counters (panda_assembler_copy_configuration PANDA_MAX_LEN dest src) = counters dest := by
  simp only [panda_assembler_copy_configuration, foldl_add_module,
    panda_assembler_set_forward_primer, panda_assembler_set_reverse_primer]
  split_ifs <;> rfl

/-- C9: counter invariant over the configuration operations.  `panda_assembler_new` sets the
seven counters to 0 (every reachable state has them 0), no setter and no
`copy_configuration` changes any of them, and in every reachable state
`get_count == ok + lowq + degen + noalgn + nofp + norp`. -/
theorem reachable_counters (PANDA_MAX_LEN KMERSEEN_SIZE : Nat) (a : panda_assembler ℝ)
    (h : Reachable PANDA_MAX_LEN KMERSEEN_SIZE a) :
    counters a = [0, 0, 0, 0, 0, 0, 0] ∧
    (∀ (op : ConfigOp ℝ) (b : panda_assembler ℝ),
      counters (op.apply PANDA_MAX_LEN Real.log b) = counters b) ∧
    (∀ dest src : panda_assembler ℝ,
      counters (panda_assembler_copy_configuration PANDA_MAX_LEN dest src) = counters dest) ∧
    panda_assembler_get_count a
      = panda_assembler_get_ok_count a + panda_assembler_get_low_quality_count a
        + panda_assembler_get_degenerate_count a
        + panda_assembler_get_failed_alignment_count a
        + panda_assembler_get_no_forward_primer_count a
        + panda_assembler_get_no_reverse_primer_count a := by
  have hz : counters a = [0, 0, 0, 0, 0, 0, 0] := by
    induction h with
    | new mem next next_data next_destroy logger logger_data logger_destroy a h =>
      obtain ⟨m, -, -, -, -, -, h1, h2, h3, h4, h5, h6, h7⟩ :=
        new_fields _ _ _ _ _ _ _ _ _ a h
      simp [counters, panda_assembler_get_count, panda_assembler_get_ok_count,
        panda_assembler_get_low_quality_count, panda_assembler_get_degenerate_count,
        panda_assembler_get_failed_alignment_count,
        panda_assembler_get_no_forward_primer_count,
        panda_assembler_get_no_reverse_primer_count, h1, h2, h3, h4, h5, h6, h7]
    | set op a _ ih => rw [counters_apply, ih]
    | copy dest src _ _ ihd _ => rw [counters_copy_configuration, ihd]
  refine ⟨hz, counters_apply PANDA_MAX_LEN, counters_copy_configuration PANDA_MAX_LEN, ?_⟩
  simp only [counters, List.cons.injEq, and_true] at hz
  obtain ⟨h1, h2, h3, h4, h5, h6, h7⟩ := hz
  rw [h1, h2, h3, h4, h5, h6, h7]
  rfl

/-- C9, at the state obtained from a new assembler (`PANDA_MAX_LEN = 512`, a block whose
counter cells hold 9) by `set_forward_trim(4)`. -/
theorem reachable_counters_witness :
    ∃ a, panda_assembler_new 512 16 Real.log
        (some { zeroed ℝ with count := 9, okcount := 9, nofpcount := 9 })
        none none none none none none = some a ∧
      counters (panda_assembler_set_forward_trim a 4) = [0, 0, 0, 0, 0, 0, 0] := by
  cases hnew : panda_assembler_new 512 16 Real.log
      (some { zeroed ℝ with count := 9, okcount := 9, nofpcount := 9 })
      none none none none none none with
  | none => simp [panda_assembler_new] at hnew
  | some a =>
    exact ⟨a, rfl,
      (reachable_counters 512 16 _
        (Reachable.set (ConfigOp.set_forward_trim 4) a
          (Reachable.new _ _ _ _ _ _ _ a hnew))).1⟩

/-! ## The quality offset of the FASTQ argument record -/

/-- The quality offset after a sequence of tweak calls on any record. -/
theorem run_tweaks_qualmin (calls : List TweakCall) (data : panda_args_fastq) :
    (run_tweaks calls data).qualmin
      = if calls.any (fun c => decide (c.flag = '6')) = true then 64 else data.qualmin := by
  induction calls generalizing data with
  | nil => simp [run_tweaks]
  | cons c cs ih =>
    simp only [run_tweaks, ih, List.any_cons, Bool.or_eq_true, decide_eq_true_eq]
    by_cases h6 : c.flag = '6'
    · simp [h6, panda_args_fastq_tweak]
    · by_cases hany : cs.any (fun c => decide (c.flag = '6')) = true
      · simp [hany]
      · have hq : (panda_args_fastq_tweak c.fopen data c.flag c.argument).2.qualmin
            = data.qualmin := by
          simp only [panda_args_fastq_tweak, if_neg h6]
          split_ifs <;> rfl
        simp [h6, hany, hq]

/-- C10: the quality offset held by the FASTQ argument record is always 33 or 64:
`panda_args_fastq_new` sets it to 33, and after any sequence of `panda_args_fastq_tweak`
calls (any flags, any arguments, any outcome of `fopen`) it is 64 if flag `6` occurred among
the calls and 33 otherwise. -/
theorem fastq_qualmin (mem : panda_args_fastq) (calls : List TweakCall) :
    (panda_args_fastq_new mem).qualmin = 33 ∧
    (run_tweaks calls (panda_args_fastq_new mem)).qualmin
      = (if calls.any (fun c => decide (c.flag = '6')) = true then 64 else 33) ∧
    ((run_tweaks calls (panda_args_fastq_new mem)).qualmin = 33 ∨
      (run_tweaks calls (panda_args_fastq_new mem)).qualmin = 64) := by
  have h := run_tweaks_qualmin calls (panda_args_fastq_new mem)
  have h33 : (panda_args_fastq_new mem).qualmin = 33 := rfl
  rw [h33] at h
  refine ⟨rfl, h, ?_⟩
  rw [h]
  split_ifs
  · exact Or.inr rfl
  · exact Or.inl rfl

/-! ## Primer and trim in reachable states, copied configuration, constructor defaults -/

/-- The fields that `panda_assembler_new` assigns besides the counters and the guarded
fields. -/
theorem new_defaults (PANDA_MAX_LEN KMERSEEN_SIZE : Nat) (mem : Option (panda_assembler ℝ))
    (next next_data next_destroy logger logger_data logger_destroy : Ptr)
    (a : panda_assembler ℝ)
    (h : panda_assembler_new PANDA_MAX_LEN KMERSEEN_SIZE Real.log mem next next_data
      next_destroy logger logger_data logger_destroy = some a) :
    a.forward_primer_length = 0 ∧ a.reverse_primer_length = 0 ∧ a.forward_trim = 0 ∧
    a.reverse_trim = 0 ∧ a.no_n = false ∧ a.kmerseen = List.replicate KMERSEEN_SIZE 0 ∧
    a.modules = [] := by
  cases mem with
  | none => simp [panda_assembler_new] at h
  | some m =>
    have hq : (0.36 : ℝ) > 0 ∧ (0.36 : ℝ) < 1 := by norm_num
    have ht : (0.6 : ℝ) > 0 ∧ (0.6 : ℝ) < 1 := by norm_num
    simp only [panda_assembler_new, panda_assembler_set_error_estimation,
      panda_assembler_set_threshold, panda_assembler_set_minimum_overlap, if_pos hq, if_pos ht,
      Option.some.injEq] at h
    subst h
    simp

/-- In a reachable state each end has either no primer, or a primer shorter than
`PANDA_MAX_LEN` and no trim. -/
theorem reachable_primer_trim (PANDA_MAX_LEN KMERSEEN_SIZE : Nat) (a : panda_assembler ℝ)
    (h : Reachable PANDA_MAX_LEN KMERSEEN_SIZE a) :
    (a.forward_primer_length = 0 ∨
      (a.forward_primer_length < PANDA_MAX_LEN ∧ a.forward_trim = 0)) ∧
    (a.reverse_primer_length = 0 ∨
      (a.reverse_primer_length < PANDA_MAX_LEN ∧ a.reverse_trim = 0)) := by
  induction h with
  | new mem next next_data next_destroy logger logger_data logger_destroy a h =>
    obtain ⟨h1, h2, -⟩ := new_defaults _ _ _ _ _ _ _ _ _ a h
    exact ⟨Or.inl h1, Or.inl h2⟩
  | set op a _ ih =>
    cases op with
    | set_minimum_overlap overlap =>
      simp only [ConfigOp.apply, panda_assembler_set_minimum_overlap]
      split_ifs <;> exact ih
    | set_threshold threshold =>
      simp only [ConfigOp.apply, panda_assembler_set_threshold]
      split_ifs <;> exact ih
    | set_error_estimation q =>
      simp only [ConfigOp.apply, panda_assembler_set_error_estimation]
      split_ifs <;> exact ih
    | set_disallow_degenerates allow => exact ih
    | set_forward_primer sequence length =>
      simp only [ConfigOp.apply, panda_assembler_set_forward_primer]
      split_ifs with hg
      · exact ⟨Or.inr ⟨hg, rfl⟩, ih.2⟩
      · exact ih
    | set_reverse_primer sequence length =>
      simp only [ConfigOp.apply, panda_assembler_set_reverse_primer]
      split_ifs with hg
      · exact ⟨ih.1, Or.inr ⟨hg, rfl⟩⟩
      · exact ih
    | set_forward_trim trim => exact ⟨Or.inl rfl, ih.2⟩
    | set_reverse_trim trim => exact ⟨ih.1, Or.inl rfl⟩
    | add_module module => exact ih
  | copy dest src _ _ ihd ihs =>
    simp only [panda_assembler_copy_configuration, foldl_add_module,
      panda_assembler_set_forward_primer, panda_assembler_set_reverse_primer]
    obtain ⟨hdf, hdr⟩ := ihd
    obtain ⟨hsf, hsr⟩ := ihs
    constructor
    · by_cases hf : src.forward_primer_length < PANDA_MAX_LEN
      · simp only [if_pos hf]
        split_ifs <;> exact hsf
      · have hs0 : src.forward_primer_length = 0 := by
          rcases hsf with h0 | ⟨h1, _⟩
          · exact h0
          · exact absurd h1 hf
        have hd0 : dest.forward_primer_length = 0 := by
          rcases hdf with h0 | ⟨h1, _⟩
          · exact h0
          · omega
        simp only [if_neg hf]
        split_ifs <;> exact Or.inl hd0
    · by_cases hr : src.reverse_primer_length < PANDA_MAX_LEN
      · simp only [if_pos hr]
        exact hsr
      · have hs0 : src.reverse_primer_length = 0 := by
          rcases hsr with h0 | ⟨h1, _⟩
          · exact h0
          · exact absurd h1 hr
        have hd0 : dest.reverse_primer_length = 0 := by
          rcases hdr with h0 | ⟨h1, _⟩
          · exact h0
          · omega
        simp only [if_neg hr]
        split_ifs <;> exact Or.inl hd0

/-- C11: primer and trim are mutually exclusive in every reachable state.  For every
assembler state reachable from `panda_assembler_new` by the setters and by
`copy_configuration` from another reachable assembler, it is never the case that the forward
primer length and the forward trim are both positive, nor that the reverse primer length and
the reverse trim are both positive. -/
theorem reachable_primer_trim_exclusive (PANDA_MAX_LEN KMERSEEN_SIZE : Nat)
    (a : panda_assembler ℝ) (h : Reachable PANDA_MAX_LEN KMERSEEN_SIZE a) :
    ¬ (0 < (panda_assembler_get_forward_primer a).2 ∧ 0 < panda_assembler_get_forward_trim a) ∧
    ¬ (0 < (panda_assembler_get_reverse_primer a).2 ∧
        0 < panda_assembler_get_reverse_trim a) := by
  obtain ⟨hf, hr⟩ := reachable_primer_trim PANDA_MAX_LEN KMERSEEN_SIZE a h
  simp only [panda_assembler_get_forward_primer, panda_assembler_get_forward_trim,
    panda_assembler_get_reverse_primer, panda_assembler_get_reverse_trim]
  constructor
  · rintro ⟨h1, h2⟩
    rcases hf with h0 | ⟨_, h0⟩ <;> omega
  · rintro ⟨h1, h2⟩
    rcases hr with h0 | ⟨_, h0⟩ <;> omega

/-- C11, at the state obtained from a new assembler (`PANDA_MAX_LEN = 512`, zeroed block) by
`set_forward_primer` with a primer of length 3 followed by `set_forward_trim(4)`. -/
theorem reachable_primer_trim_exclusive_witness :
    ∃ a, panda_assembler_new 512 16 Real.log (some (zeroed ℝ)) none none none none none none
        = some a ∧
      ¬ (0 < (panda_assembler_get_forward_primer
            (panda_assembler_set_forward_trim
              (panda_assembler_set_forward_primer 512 a (fun _ => 1) 3) 4)).2 ∧
          0 < panda_assembler_get_forward_trim
            (panda_assembler_set_forward_trim
              (panda_assembler_set_forward_primer 512 a (fun _ => 1) 3) 4)) := by
  cases hnew : panda_assembler_new 512 16 Real.log (some (zeroed ℝ)) none none none none
      none none with
  | none => simp [panda_assembler_new] at hnew
  | some a =>
    have hr : Reachable 512 16
        (panda_assembler_set_forward_trim
          (panda_assembler_set_forward_primer 512 a (fun _ => 1) 3) 4) :=
      Reachable.set (ConfigOp.set_forward_trim 4) _
        (Reachable.set (ConfigOp.set_forward_primer (fun _ => 1) 3) _
          (Reachable.new _ _ _ _ _ _ _ a hnew))
    exact ⟨a, rfl, (reachable_primer_trim_exclusive 512 16 _ hr).1⟩

/-- C12: for every `dest` and every `src` whose primer lengths are below `PANDA_MAX_LEN`,
`copy_configuration(dest, src)` makes `dest` agree with `src` on the forward and reverse
primer (length, null or not, and the codes below the length), the forward and reverse trim,
the stored threshold, the minimum overlap and disallow-degenerates, and leaves the error
estimation `q`, `pmatch`, `pmismatch`, the counters and the reference count of `dest` as
they were. -/
theorem copy_configuration_effect (PANDA_MAX_LEN : Nat) (dest src : panda_assembler ℝ)
    (hf : src.forward_primer_length < PANDA_MAX_LEN)
    (hr : src.reverse_primer_length < PANDA_MAX_LEN) :
    ((panda_assembler_get_forward_primer
        (panda_assembler_copy_configuration PANDA_MAX_LEN dest src)).2
        = (panda_assembler_get_forward_primer src).2 ∧
      ((panda_assembler_get_forward_primer
        (panda_assembler_copy_configuration PANDA_MAX_LEN dest src)).1 = none ↔
        (panda_assembler_get_forward_primer src).1 = none) ∧
      ∀ i, i < src.forward_primer_length →
        (panda_assembler_copy_configuration PANDA_MAX_LEN dest src).forward_primer i
          = src.forward_primer i) ∧
    ((panda_assembler_get_reverse_primer
        (panda_assembler_copy_configuration PANDA_MAX_LEN dest src)).2
        = (panda_assembler_get_reverse_primer src).2 ∧
      ((panda_assembler_get_reverse_primer
        (panda_assembler_copy_configuration PANDA_MAX_LEN dest src)).1 = none ↔
        (panda_assembler_get_reverse_primer src).1 = none) ∧
      ∀ i, i < src.reverse_primer_length →
        (panda_assembler_copy_configuration PANDA_MAX_LEN dest src).reverse_primer i
          = src.reverse_primer i) ∧
    (panda_assembler_get_forward_trim
        (panda_assembler_copy_configuration PANDA_MAX_LEN dest src)
        = panda_assembler_get_forward_trim src ∧
      panda_assembler_get_reverse_trim
        (panda_assembler_copy_configuration PANDA_MAX_LEN dest src)
        = panda_assembler_get_reverse_trim src ∧
      (panda_assembler_copy_configuration PANDA_MAX_LEN dest src).threshold = src.threshold ∧
      panda_assembler_get_minimum_overlap
        (panda_assembler_copy_configuration PANDA_MAX_LEN dest src)
        = panda_assembler_get_minimum_overlap src ∧
      panda_assembler_get_disallow_degenerates
        (panda_assembler_copy_configuration PANDA_MAX_LEN dest src)
        = panda_assembler_get_disallow_degenerates src) ∧
    (panda_assembler_get_error_estimation
        (panda_assembler_copy_configuration PANDA_MAX_LEN dest src)
        = panda_assembler_get_error_estimation dest ∧
      (panda_assembler_copy_configuration PANDA_MAX_LEN dest src).pmatch = dest.pmatch ∧
      (panda_assembler_copy_configuration PANDA_MAX_LEN dest src).pmismatch = dest.pmismatch ∧
      counters (panda_assembler_copy_configuration PANDA_MAX_LEN dest src) = counters dest ∧
      (panda_assembler_copy_configuration PANDA_MAX_LEN dest src).refcnt = dest.refcnt) := by
  have e : panda_assembler_copy_configuration PANDA_MAX_LEN dest src
      = { dest with
          modules := dest.modules ++ src.modules
          forward_primer :=
            copy_primer dest.forward_primer src.forward_primer src.forward_primer_length
          forward_primer_length := src.forward_primer_length
          reverse_primer :=
            copy_primer dest.reverse_primer src.reverse_primer src.reverse_primer_length
          reverse_primer_length := src.reverse_primer_length
          forward_trim := src.forward_trim
          reverse_trim := src.reverse_trim
          threshold := src.threshold
          minoverlap := src.minoverlap
          no_n := src.no_n } := by
    simp only [panda_assembler_copy_configuration, foldl_add_module,
      panda_assembler_set_forward_primer, panda_assembler_set_reverse_primer, if_pos hf,
      if_pos hr]
  rw [e]
  refine ⟨⟨rfl, ?_, ?_⟩, ⟨rfl, ?_, ?_⟩, ⟨rfl, rfl, rfl, rfl, rfl⟩, ⟨rfl, rfl, rfl, rfl, rfl⟩⟩
  · simp [panda_assembler_get_forward_primer]
  · intro i hi
    simp [copy_primer_apply, hi]
  · simp [panda_assembler_get_reverse_primer]
  · intro i hi
    simp [copy_primer_apply, hi]

/-- C12, at `PANDA_MAX_LEN = 512`, `dest` the zeroed state with trim 5 and count 3, and
`src` the zeroed state with a forward primer of length 2 and minimum overlap 7. -/
theorem copy_configuration_effect_witness :
    (2 : Nat) < 512 ∧ (0 : Nat) < 512 ∧
    (panda_assembler_get_forward_primer
      (panda_assembler_copy_configuration 512
        { zeroed ℝ with forward_trim := 5, count := 3 }
        { zeroed ℝ with forward_primer := fun i => i + 1, forward_primer_length := 2,
                        minoverlap := 7 })).2
      = (panda_assembler_get_forward_primer
        ({ zeroed ℝ with forward_primer := fun i => i + 1, forward_primer_length := 2,
                         minoverlap := 7 } : panda_assembler ℝ)).2 :=
  ⟨by decide, by decide,
    (copy_configuration_effect 512 { zeroed ℝ with forward_trim := 5, count := 3 }
      { zeroed ℝ with forward_primer := fun i => i + 1, forward_primer_length := 2,
                      minoverlap := 7 } (by decide) (by decide)).1.1⟩

/-- C13: a freshly constructed assembler has the constructor's defaults:
`get_error_estimation() = 0.36`, `get_threshold() = 0.6` (stored as `log 0.6`), both primer
getters report length 0 with a null buffer, both trims are 0, disallow-degenerates is false,
the reference count is 1 and the k-mer table is `KMERSEEN_SIZE` zero bytes. -/
theorem new_has_defaults (PANDA_MAX_LEN KMERSEEN_SIZE : Nat)
    (mem : Option (panda_assembler ℝ))
    (next next_data next_destroy logger logger_data logger_destroy : Ptr)
    (a : panda_assembler ℝ)
    (h : panda_assembler_new PANDA_MAX_LEN KMERSEEN_SIZE Real.log mem next next_data
      next_destroy logger logger_data logger_destroy = some a) :
    panda_assembler_get_error_estimation a = 0.36 ∧
    panda_assembler_get_threshold Real.exp a = 0.6 ∧
    a.threshold = Real.log 0.6 ∧
    panda_assembler_get_forward_primer a = (none, 0) ∧
    panda_assembler_get_reverse_primer a = (none, 0) ∧
    panda_assembler_get_forward_trim a = 0 ∧
    panda_assembler_get_reverse_trim a = 0 ∧
    panda_assembler_get_disallow_degenerates a = false ∧
    a.refcnt = 1 ∧
    a.kmerseen.length = KMERSEEN_SIZE ∧
    (∀ byte, byte ∈ a.kmerseen → byte = 0) := by
  obtain ⟨m, -, hq, ht, -, hcnt, -⟩ := new_fields _ _ _ _ _ _ _ _ _ a h
  obtain ⟨hfl, hrl, hft, hrt, hn, hk, -⟩ := new_defaults _ _ _ _ _ _ _ _ _ a h
  have h06 : (0 : ℝ) < 0.6 := by norm_num
  refine ⟨hq, ?_, ht, ?_, ?_, hft, hrt, hn, hcnt, ?_, ?_⟩
  · simp only [panda_assembler_get_threshold, ht]
    exact Real.exp_log h06
  · simp [panda_assembler_get_forward_primer, hfl]
  · simp [panda_assembler_get_reverse_primer, hrl]
  · simp [hk]
  · intro byte hb
    rw [hk] at hb
    exact (List.mem_replicate.mp hb).2

/-- C13, at `PANDA_MAX_LEN = 512`, a k-mer table of 16 bytes and a block whose cells hold
other values than the defaults. -/
theorem new_has_defaults_witness :
    ∃ a, panda_assembler_new 512 16 Real.log
        (some { zeroed ℝ with q := 5, forward_trim := 9, refcnt := 7, no_n := true,
                              forward_primer_length := 4, kmerseen := [1, 2, 3] })
        none none none none none none = some a ∧
      panda_assembler_get_error_estimation a = 0.36 ∧
      panda_assembler_get_forward_primer a = (none, 0) ∧
      a.refcnt = 1 ∧ a.kmerseen.length = 16 := by
  cases hnew : panda_assembler_new 512 16 Real.log
      (some { zeroed ℝ with q := 5, forward_trim := 9, refcnt := 7, no_n := true,
                            forward_primer_length := 4, kmerseen := [1, 2, 3] })
      none none none none none none with
  | none => simp [panda_assembler_new] at hnew
  | some a =>
    have h := new_has_defaults 512 16 _ _ _ _ _ _ _ a hnew
    exact ⟨a, rfl, h.1, h.2.2.2.1, h.2.2.2.2.2.2.2.2.1, h.2.2.2.2.2.2.2.2.2.1⟩

/-! ## Tweaks and the opener of the FASTQ argument record -/

/-- C14: `panda_args_fastq_tweak` returns false and leaves the argument record unchanged for
every flag other than `6`, `B`, `f`, `j`, `r`, `u`; for each of `6`, `B`, `f`, `j`, `r` it
returns true for every argument and assigns exactly one field (`qualmin := 64`,
`policy := PANDA_TAG_OPTIONAL`, `forward_filename := argument`, `bzip := true`,
`reverse_filename := argument` respectively), the other fields being as before. -/
theorem tweak_effect (fopen : Option String → Ptr) (data : panda_args_fastq) (flag : Char)
    (argument : Option String)
    (hflag : flag ≠ '6' ∧ flag ≠ 'B' ∧ flag ≠ 'f' ∧ flag ≠ 'j' ∧ flag ≠ 'r' ∧ flag ≠ 'u') :
    panda_args_fastq_tweak fopen data flag argument = (false, data) ∧
    panda_args_fastq_tweak fopen data '6' argument = (true, { data with qualmin := 64 }) ∧
    panda_args_fastq_tweak fopen data 'B' argument
      = (true, { data with policy := PandaTagging.PANDA_TAG_OPTIONAL }) ∧
    panda_args_fastq_tweak fopen data 'f' argument
      = (true, { data with forward_filename := argument }) ∧
    panda_args_fastq_tweak fopen data 'j' argument = (true, { data with bzip := true }) ∧
    panda_args_fastq_tweak fopen data 'r' argument
      = (true, { data with reverse_filename := argument }) := by
  obtain ⟨h6, hB, hf, hj, hr, hu⟩ := hflag
  refine ⟨?_, ?_, ?_, ?_, ?_, ?_⟩
  · simp [panda_args_fastq_tweak, h6, hB, hf, hj, hr, hu]
  · simp [panda_args_fastq_tweak]
  · simp [panda_args_fastq_tweak]
  · simp [panda_args_fastq_tweak]
  · simp [panda_args_fastq_tweak]
  · simp [panda_args_fastq_tweak]

/-- C14, at the flag `x` on a fresh record. -/
theorem tweak_effect_witness :
    ('x' ≠ '6' ∧ 'x' ≠ 'B' ∧ 'x' ≠ 'f' ∧ 'x' ≠ 'j' ∧ 'x' ≠ 'r' ∧ 'x' ≠ 'u') ∧
    panda_args_fastq_tweak (fun _ => some 3)
      (panda_args_fastq_new ⟨false, true, some "a", some 1, PandaTagging.PANDA_TAG_OPTIONAL,
        0, some "b"⟩) 'x' (some "arg")
      = (false, panda_args_fastq_new ⟨false, true, some "a", some 1,
          PandaTagging.PANDA_TAG_OPTIONAL, 0, some "b"⟩) :=
  ⟨by decide,
    (tweak_effect (fun _ => some 3)
      (panda_args_fastq_new ⟨false, true, some "a", some 1, PandaTagging.PANDA_TAG_OPTIONAL,
        0, some "b"⟩) 'x' (some "arg") (by decide)).1⟩

/-- A file name that is set after a sequence of tweak calls was set before, or a call with
the flag of that file name occurred. -/
theorem run_tweaks_filenames (calls : List TweakCall) (data : panda_args_fastq) :
    ((run_tweaks calls data).forward_filename ≠ none →
      data.forward_filename ≠ none ∨ calls.any (fun c => decide (c.flag = 'f')) = true) ∧
    ((run_tweaks calls data).reverse_filename ≠ none →
      data.reverse_filename ≠ none ∨ calls.any (fun c => decide (c.flag = 'r')) = true) := by
  induction calls generalizing data with
  | nil =>
    simp only [run_tweaks]
    exact ⟨fun h => Or.inl h, fun h => Or.inl h⟩
  | cons c cs ih =>
    obtain ⟨ihf, ihr⟩ := ih (panda_args_fastq_tweak c.fopen data c.flag c.argument).2
    simp only [run_tweaks, List.any_cons, Bool.or_eq_true, decide_eq_true_eq]
    constructor
    · intro h
      by_cases hc : c.flag = 'f'
      · exact Or.inr (Or.inl hc)
      · have hkeep : (panda_args_fastq_tweak c.fopen data c.flag c.argument).2.forward_filename
            = data.forward_filename := by
          simp only [panda_args_fastq_tweak, if_neg hc]
          split_ifs <;> rfl
        rcases ihf h with h1 | h1
        · rw [hkeep] at h1
          exact Or.inl h1
        · exact Or.inr (Or.inr h1)
    · intro h
      by_cases hc : c.flag = 'r'
      · exact Or.inr (Or.inl hc)
      · have hkeep : (panda_args_fastq_tweak c.fopen data c.flag c.argument).2.reverse_filename
            = data.reverse_filename := by
          simp only [panda_args_fastq_tweak, if_neg hc]
          split_ifs <;> rfl
        rcases ihr h with h1 | h1
        · rw [hkeep] at h1
          exact Or.inl h1
        · exact Or.inr (Or.inr h1)

/-- C15: `panda_args_fastq_opener` returns no source (`NULL`) whenever the forward filename
or the reverse filename has not been set, and in that case it leaves the argument record and
every output cell as it was; for a record obtained from `panda_args_fastq_new` by tweak
calls, a source is returned only if both an `f` and an `r` tweak occurred. -/
theorem opener_needs_filenames (panda_open_bz2 panda_open_gz : PandaOpen)
    (data : panda_args_fastq) (logger : Ptr) (out : opener_outputs)
    (mem : panda_args_fastq) (calls : List TweakCall) :
    ((data.forward_filename = none ∨ data.reverse_filename = none) →
      panda_args_fastq_opener panda_open_bz2 panda_open_gz data logger out
        = (none, data, out)) ∧
    ((panda_args_fastq_opener panda_open_bz2 panda_open_gz
        (run_tweaks calls (panda_args_fastq_new mem)) logger out).1 ≠ none →
      calls.any (fun c => decide (c.flag = 'f')) = true ∧
      calls.any (fun c => decide (c.flag = 'r')) = true) := by
  constructor
  · intro h
    simp only [panda_args_fastq_opener, if_pos h]
  · intro h
    by_cases hn : (run_tweaks calls (panda_args_fastq_new mem)).forward_filename = none ∨
        (run_tweaks calls (panda_args_fastq_new mem)).reverse_filename = none
    · simp only [panda_args_fastq_opener, if_pos hn] at h
      exact absurd rfl h
    · obtain ⟨hf, hr⟩ := run_tweaks_filenames calls (panda_args_fastq_new mem)
      have hf1 : (run_tweaks calls (panda_args_fastq_new mem)).forward_filename ≠ none :=
        fun e => hn (Or.inl e)
      have hr1 : (run_tweaks calls (panda_args_fastq_new mem)).reverse_filename ≠ none :=
        fun e => hn (Or.inr e)
      constructor
      · rcases hf hf1 with h1 | h1
        · exact absurd rfl h1
        · exact h1
      · rcases hr hr1 with h1 | h1
        · exact absurd rfl h1
        · exact h1

/-- C15, at a fresh record (no file name set), and at the fresh record after the tweaks
`f` and `r` with open functions that return a source. -/
theorem opener_needs_filenames_witness :
    ((panda_args_fastq_new ⟨false, true, some "x", some 1, PandaTagging.PANDA_TAG_OPTIONAL,
        0, some "y"⟩).forward_filename = none ∨
      (panda_args_fastq_new ⟨false, true, some "x", some 1, PandaTagging.PANDA_TAG_OPTIONAL,
        0, some "y"⟩).reverse_filename = none) ∧
    panda_args_fastq_opener (fun _ _ _ _ _ _ _ => (some 1, none, none))
        (fun _ _ _ _ _ _ _ => (some 2, none, none))
        (panda_args_fastq_new ⟨false, true, some "x", some 1,
          PandaTagging.PANDA_TAG_OPTIONAL, 0, some "y"⟩)
        none ⟨some (Callback.other 5), some 6, none, some 7, none⟩
      = (none,
          panda_args_fastq_new ⟨false, true, some "x", some 1,
            PandaTagging.PANDA_TAG_OPTIONAL, 0, some "y"⟩,
          ⟨some (Callback.other 5), some 6, none, some 7, none⟩) ∧
    (panda_args_fastq_opener (fun _ _ _ _ _ _ _ => (some 1, none, none))
        (fun _ _ _ _ _ _ _ => (some 2, none, none))
        (run_tweaks [⟨fun _ => none, 'f', some "a"⟩, ⟨fun _ => none, 'r', some "b"⟩]
          (panda_args_fastq_new ⟨false, true, some "x", some 1,
            PandaTagging.PANDA_TAG_OPTIONAL, 0, some "y"⟩))
        none ⟨some (Callback.other 5), some 6, none, some 7, none⟩).1 ≠ none ∧
    (([⟨fun _ => none, 'f', some "a"⟩, ⟨fun _ => none, 'r', some "b"⟩] :
        List TweakCall).any (fun c => decide (c.flag = 'f')) = true ∧
      ([⟨fun _ => none, 'f', some "a"⟩, ⟨fun _ => none, 'r', some "b"⟩] :
        List TweakCall).any (fun c => decide (c.flag = 'r')) = true) :=
  have hset : (panda_args_fastq_opener (fun _ _ _ _ _ _ _ => (some 1, none, none))
      (fun _ _ _ _ _ _ _ => (some 2, none, none))
      (run_tweaks [⟨fun _ => none, 'f', some "a"⟩, ⟨fun _ => none, 'r', some "b"⟩]
        (panda_args_fastq_new ⟨false, true, some "x", some 1,
          PandaTagging.PANDA_TAG_OPTIONAL, 0, some "y"⟩))
      none ⟨some (Callback.other 5), some 6, none, some 7, none⟩).1 ≠ none := by
    simp [panda_args_fastq_opener, run_tweaks, panda_args_fastq_tweak, panda_args_fastq_new]
  ⟨Or.inl rfl,
    (opener_needs_filenames (fun _ _ _ _ _ _ _ => (some 1, none, none))
      (fun _ _ _ _ _ _ _ => (some 2, none, none))
      (panda_args_fastq_new ⟨false, true, some "x", some 1,
        PandaTagging.PANDA_TAG_OPTIONAL, 0, some "y"⟩)
      none ⟨some (Callback.other 5), some 6, none, some 7, none⟩
      ⟨false, true, some "x", some 1, PandaTagging.PANDA_TAG_OPTIONAL, 0, some "y"⟩
      []).1 (Or.inl rfl),
    hset,
    (opener_needs_filenames (fun _ _ _ _ _ _ _ => (some 1, none, none))
      (fun _ _ _ _ _ _ _ => (some 2, none, none))
      (panda_args_fastq_new ⟨false, true, some "x", some 1,
        PandaTagging.PANDA_TAG_OPTIONAL, 0, some "y"⟩)
      none ⟨some (Callback.other 5), some 6, none, some 7, none⟩
      ⟨false, true, some "x", some 1, PandaTagging.PANDA_TAG_OPTIONAL, 0, some "y"⟩
      [⟨fun _ => none, 'f', some "a"⟩, ⟨fun _ => none, 'r', some "b"⟩]).2 hset⟩

/-- C16: single ownership of the unaligned-output file.  When `panda_args_fastq_opener` is
called with both filenames set: if the record holds a file handle `h`, the outputs are
`fail = panda_output_fail`, `fail_data = h`, `fail_destroy = fclose`, the record afterwards
is the record with the handle `NULL`, and `panda_args_fastq_free` on it only frees the
record; if the record holds no handle, the three outputs are `NULL` and the record is
unchanged.  In both cases no handle is held by the record and by `fail_data` at once. -/
theorem opener_fail_outputs (panda_open_bz2 panda_open_gz : PandaOpen)
    (data : panda_args_fastq) (logger : Ptr) (out : opener_outputs)
    (hf : data.forward_filename ≠ none) (hr : data.reverse_filename ≠ none) :
    (∀ h, data.no_algn_file = some h →
      (panda_args_fastq_opener panda_open_bz2 panda_open_gz data logger out).2.2.fail
        = some Callback.panda_output_fail ∧
      (panda_args_fastq_opener panda_open_bz2 panda_open_gz data logger out).2.2.fail_data
        = some h ∧
      (panda_args_fastq_opener panda_open_bz2 panda_open_gz data logger out).2.2.fail_destroy
        = some Callback.fclose ∧
      (panda_args_fastq_opener panda_open_bz2 panda_open_gz data logger out).2.1
        = { data with no_algn_file := none } ∧
      panda_args_fastq_free
        (panda_args_fastq_opener panda_open_bz2 panda_open_gz data logger out).2.1
        = [FreeCall.free_data]) ∧
    (data.no_algn_file = none →
      (panda_args_fastq_opener panda_open_bz2 panda_open_gz data logger out).2.2.fail
        = none ∧
      (panda_args_fastq_opener panda_open_bz2 panda_open_gz data logger out).2.2.fail_data
        = none ∧
      (panda_args_fastq_opener panda_open_bz2 panda_open_gz data logger out).2.2.fail_destroy
        = none ∧
      (panda_args_fastq_opener panda_open_bz2 panda_open_gz data logger out).2.1 = data) ∧
    (∀ h,
      ¬ ((panda_args_fastq_opener panda_open_bz2 panda_open_gz data logger
            out).2.1.no_algn_file = some h ∧
        (panda_args_fastq_opener panda_open_bz2 panda_open_gz data logger
            out).2.2.fail_data = some h)) := by
  have hn : ¬ (data.forward_filename = none ∨ data.reverse_filename = none) := by
    rintro (h | h)
    · exact hf h
    · exact hr h
  have hsome : ∀ h, data.no_algn_file = some h →
      (panda_args_fastq_opener panda_open_bz2 panda_open_gz data logger out).2.2.fail
        = some Callback.panda_output_fail ∧
      (panda_args_fastq_opener panda_open_bz2 panda_open_gz data logger out).2.2.fail_data
        = some h ∧
      (panda_args_fastq_opener panda_open_bz2 panda_open_gz data logger out).2.2.fail_destroy
        = some Callback.fclose ∧
      (panda_args_fastq_opener panda_open_bz2 panda_open_gz data logger out).2.1
        = { data with no_algn_file := none } := by
    intro h hh
    have hne : data.no_algn_file ≠ none := by
      rw [hh]
      exact Option.some_ne_none h
    rw [panda_args_fastq_opener, if_neg hn, if_pos hne]
    exact ⟨rfl, hh, rfl, rfl⟩
  have hnone : data.no_algn_file = none →
      (panda_args_fastq_opener panda_open_bz2 panda_open_gz data logger out).2.2.fail
        = none ∧
      (panda_args_fastq_opener panda_open_bz2 panda_open_gz data logger out).2.2.fail_data
        = none ∧
      (panda_args_fastq_opener panda_open_bz2 panda_open_gz data logger out).2.2.fail_destroy
        = none ∧
      (panda_args_fastq_opener panda_open_bz2 panda_open_gz data logger out).2.1 = data := by
    intro hh
    have hne : ¬ (data.no_algn_file ≠ none) := fun h => h hh
    rw [panda_args_fastq_opener, if_neg hn, if_neg hne]
    exact ⟨rfl, rfl, rfl, rfl⟩
  refine ⟨?_, hnone, ?_⟩
  · intro h hh
    obtain ⟨h1, h2, h3, h4⟩ := hsome h hh
    refine ⟨h1, h2, h3, h4, ?_⟩
    rw [h4]
    rfl
  · rintro h ⟨h1, h2⟩
    cases hfile : data.no_algn_file with
    | none =>
      rw [(hnone hfile).2.1] at h2
      exact Option.noConfusion h2
    | some g =>
      rw [(hsome g hfile).2.2.2] at h1
      exact Option.noConfusion h1

/-- C16, at a record with both file names set and the file handle 7: the handle moves to
`fail_data` and leaves the record. -/
theorem opener_fail_outputs_witness :
    (⟨false, false, some "f.fastq", some 7, PandaTagging.PANDA_TAG_PRESENT, 33,
        some "r.fastq"⟩ : panda_args_fastq).forward_filename ≠ none ∧
    (⟨false, false, some "f.fastq", some 7, PandaTagging.PANDA_TAG_PRESENT, 33,
        some "r.fastq"⟩ : panda_args_fastq).reverse_filename ≠ none ∧
    (panda_args_fastq_opener (fun _ _ _ _ _ _ _ => (some 1, none, none))
        (fun _ _ _ _ _ _ _ => (some 2, none, none))
        ⟨false, false, some "f.fastq", some 7, PandaTagging.PANDA_TAG_PRESENT, 33,
          some "r.fastq"⟩
        none ⟨none, none, none, none, none⟩).2.2.fail_data = some 7 ∧
    panda_args_fastq_free
      (panda_args_fastq_opener (fun _ _ _ _ _ _ _ => (some 1, none, none))
        (fun _ _ _ _ _ _ _ => (some 2, none, none))
        ⟨false, false, some "f.fastq", some 7, PandaTagging.PANDA_TAG_PRESENT, 33,
          some "r.fastq"⟩
        none ⟨none, none, none, none, none⟩).2.1 = [FreeCall.free_data] :=
  have h := (opener_fail_outputs (fun _ _ _ _ _ _ _ => (some 1, none, none))
    (fun _ _ _ _ _ _ _ => (some 2, none, none))
    ⟨false, false, some "f.fastq", some 7, PandaTagging.PANDA_TAG_PRESENT, 33,
      some "r.fastq"⟩
    none ⟨none, none, none, none, none⟩ (Option.some_ne_none _) (Option.some_ne_none _)).1
      7 rfl
  ⟨Option.some_ne_none _, Option.some_ne_none _, h.2.1, h.2.2.2.2⟩

end Pandaseq
